import Mathlib

/-!
Shallow embedding of the timing core of `src/mvs_main.ino` (HitaSpeed v0.33):
the zero-cross tracker (`voltageCrossedThreshold`), the delay generator
(`triggerDelay` / `softStart`) and the trigger scheduler
(`scheduleTriacTrigger`).

Modelling conventions, matching the AVR (Arduino Uno) target of the sketch:

* `unsigned int` / `int` are 16-bit; `unsigned long` is 32-bit.
  Machine integers are modelled as `Nat`/`Int` with explicit reductions
  modulo `2^16` (`toU16`) or `2^32` (inside `edgeDelta`) exactly where the
  C code performs an unsigned conversion or where unsigned wraparound can
  occur.  In particular the comparisons
  `triacTriggerHoldoffMics <= minDelayMics` and `… >= maxDelayMics` compare
  an `int` with an `unsigned int`, so C converts the `int` operand to
  `unsigned int` first; `toU16` models that conversion.
* The C `float` running averages are modelled over `ℚ` with exact
  arithmetic; each update performs a single division by 32, so the model
  computes the same smoothing formula the source writes.
* The timer registers touched by `scheduleTriacTrigger` are explicit state
  (`TimerRegs`).  The field `schedHistory` of `MvsState` is ghost
  observation state: it records, newest first, every
  (microsSinceZeroCross, delayMics) argument pair that
  `voltageCrossedThreshold` passes to `scheduleTriacTrigger`; no code
  behaviour depends on it.
* `digitalRead(VOLTAGE_THR_PIN) == LOW` (the opto-isolator is inverting)
  means the mains voltage rose above the detection threshold; the model
  takes that outcome directly as the `roseAboveThreshold : Bool` argument.
  `digitalWrite(DETECT_OUT_PIN, …)` is modelled by the `detectOut` field.
-/

namespace Mvs

/-- `static const unsigned int halfPeriodMics = 10000U;` -/
def halfPeriodMics : ℕ := 10000

/-- `const unsigned int minDelayMics = 200;` (local to `triggerDelay`). -/
def minDelayMics : ℕ := 200

/-- `const unsigned int maxDelayMics = halfPeriodMics - 1000;` (local to
`triggerDelay`), i.e. 9000. -/
def maxDelayMics : ℕ := halfPeriodMics - 1000

/-- Conversion of a C `int` value to `unsigned int` (16-bit on AVR):
reduction modulo `2^16 = 65536`, yielding a natural number. -/
def toU16 (x : ℤ) : ℕ := (x % 65536).toNat

/-- The timer-1 registers written by `scheduleTriacTrigger`. -/
structure TimerRegs where
  TCNT1 : ℕ
  TCCR1A : ℕ
  OCR1A : ℕ
  TCCR1B : ℕ
deriving DecidableEq, Repr

/-- The mutable state of the timing core: the two running averages, the
delay-generator state (`triacTriggerHoldoffMics`, `stepMics`), the two
last-edge timestamps (values of the wrapped 32-bit microsecond counter),
the debug output pin level, the timer registers, and the ghost record of
scheduling requests (newest first). -/
structure MvsState where
  avgAboveThMics : ℚ
  avgBelowThMics : ℚ
  triacTriggerHoldoffMics : ℤ
  stepMics : ℤ
  tsLastAboveThMics : ℕ
  tsLastBelowThMics : ℕ
  detectOut : Bool
  timer : TimerRegs
  schedHistory : List (ℕ × ℕ)
deriving DecidableEq, Repr

/-- Timer state after `setupTimer1()` (both control registers cleared;
the count and compare registers hold their power-on value 0). -/
def initialTimer : TimerRegs := ⟨0, 0, 0, 0⟩

/-- The initial state of the sketch: `avgAboveThMics = 9600.0`,
`avgBelowThMics = 150.0`, `triacTriggerHoldoffMics = halfPeriodMics`,
`stepMics = -17`, both timestamp statics `0UL`. -/
def initialState : MvsState :=
  { avgAboveThMics := 9600
    avgBelowThMics := 150
    triacTriggerHoldoffMics := 10000
    stepMics := -17
    tsLastAboveThMics := 0
    tsLastBelowThMics := 0
    detectOut := false
    timer := initialTimer
    schedHistory := [] }

/-- `softStart()`: reset the trigger holdoff delay to its maximum value
(`triacTriggerHoldoffMics = halfPeriodMics`). -/
def softStart (s : MvsState) : MvsState :=
  { s with triacTriggerHoldoffMics := (halfPeriodMics : ℤ) }

/-- `triggerDelay()`: advance the holdoff by `stepMics`, clamp at
`minDelayMics` / `maxDelayMics` reversing the ramp direction there, and
return the (unsigned) updated holdoff.  The two comparisons convert the
`int` sum to `unsigned int` (`toU16`), as C's usual arithmetic conversions
require for an `int` / `unsigned int` comparison. -/
def triggerDelay (s : MvsState) : ℕ × MvsState :=
  let h : ℤ := s.triacTriggerHoldoffMics + s.stepMics
  if toU16 h ≤ minDelayMics then
    (minDelayMics, { s with triacTriggerHoldoffMics := (minDelayMics : ℤ)
                            stepMics := -s.stepMics })
  else if maxDelayMics ≤ toU16 h then
    (maxDelayMics, { s with triacTriggerHoldoffMics := (maxDelayMics : ℤ)
                            stepMics := -s.stepMics })
  else
    (toU16 h, { s with triacTriggerHoldoffMics := h })

/-- `scheduleTriacTrigger(micsSinceZeroCross, delayMics)`: skip entirely when
`delayMics > halfPeriodMics - halfPeriodMics / 32` (= 9688); otherwise zero
the count, clear TCCR1A, program `OCR1A` with
`(delayMics - micsSinceZeroCross) / 4` (0 when `delayMics ≤
micsSinceZeroCross`) floored below at 4, and start the timer by writing
`(1<<CS10) | (1<<CS11) | (1<<WGM12) = 11` to TCCR1B. -/
def scheduleTriacTrigger (micsSinceZeroCross delayMics : ℕ) (t : TimerRegs) :
    TimerRegs :=
  if halfPeriodMics - halfPeriodMics / 32 < delayMics then t
  else
    let ticks : ℕ :=
      if micsSinceZeroCross < delayMics then (delayMics - micsSinceZeroCross) / 4
      else 0
    { TCNT1 := 0
      TCCR1A := 0
      OCR1A := if ticks < 4 then 4 else ticks
      TCCR1B := 11 }

/-- The inter-edge interval as `voltageCrossedThreshold` computes it:
subtraction of two `unsigned long` (32-bit) timestamp values, i.e.
subtraction modulo `2^32 = 4294967296`. -/
def edgeDelta (nowMics tsLast : ℕ) : ℕ :=
  (nowMics % 4294967296 + 4294967296 - tsLast % 4294967296) % 4294967296

/-- The C cast `(unsigned int)(q)` applied to a non-negative `float` value:
truncation toward zero, i.e. the floor. -/
def floatToUInt (q : ℚ) : ℕ := q.floor.toNat

/-- `voltageCrossedThreshold()`, with the pin read and `micros()` call made
explicit arguments.  `roseAboveThreshold` is the outcome of
`digitalRead(VOLTAGE_THR_PIN) == LOW` (voltage rose above the threshold);
`nowMics` is the value returned by `micros()` (already wrapped to 32 bits).
On a rising edge with interval ≤ `halfPeriodMics` the below-threshold
average is smoothed and a trigger is scheduled at
`(unsigned int)((avgBelowThMics + 1.0) / 2)` with the delay freshly drawn
from `triggerDelay()`; on a falling edge only the above-threshold average
is smoothed; an interval above `halfPeriodMics` invokes `softStart()`. -/
def voltageCrossedThreshold (roseAboveThreshold : Bool) (nowMics : ℕ)
    (s : MvsState) : MvsState :=
  if roseAboveThreshold then
    let s0 := { s with detectOut := true, tsLastAboveThMics := nowMics }
    let deltaMics := edgeDelta nowMics s.tsLastBelowThMics
    if halfPeriodMics < deltaMics then
      softStart s0
    else
      let avg : ℚ := s0.avgBelowThMics + ((deltaMics : ℚ) - s0.avgBelowThMics) / 32
      let s1 := { s0 with avgBelowThMics := avg }
      let p := triggerDelay s1
      let ref : ℕ := floatToUInt ((avg + 1) / 2)
      { p.2 with timer := scheduleTriacTrigger ref p.1 p.2.timer
                 schedHistory := (ref, p.1) :: p.2.schedHistory }
  else
    let s0 := { s with detectOut := false, tsLastBelowThMics := nowMics }
    let deltaMics := edgeDelta nowMics s.tsLastAboveThMics
    if halfPeriodMics < deltaMics then
      softStart s0
    else
      { s0 with avgAboveThMics :=
          s0.avgAboveThMics + ((deltaMics : ℚ) - s0.avgAboveThMics) / 32 }

/-- Fold a list of edge events (direction, timestamp) through
`voltageCrossedThreshold`. -/
def runEdges (edges : List (Bool × ℕ)) (s : MvsState) : MvsState :=
  edges.foldl (fun st e => voltageCrossedThreshold e.1 e.2 st) s

/-- The ideal 50 Hz feed of the end-to-end scenario: for each cycle `k`
(0-based) a rising edge at `10000 k` µs followed by a falling edge at
`10000 k + 9600` µs. -/
def idealEdges : ℕ → List (Bool × ℕ)
  | 0 => []
  | n + 1 => idealEdges n ++ [(true, 10000 * n), (false, 10000 * n + 9600)]

/-- The intermediate state of the rising branch of `voltageCrossedThreshold`
at the moment `triggerDelay()` is invoked: debug pin raised, rising
timestamp stored, below-threshold average already smoothed. -/
def risingMid (s : MvsState) (nowMics : ℕ) : MvsState :=
  { s with detectOut := true
           tsLastAboveThMics := nowMics
           avgBelowThMics := s.avgBelowThMics
             + ((edgeDelta nowMics s.tsLastBelowThMics : ℚ) - s.avgBelowThMics) / 32 }

/-- The delay-generator part of the state invariant maintained by the core:
the holdoff stays within `[minDelayMics, halfPeriodMics]` (it sits at
`halfPeriodMics` exactly at start-up and right after `softStart`) and the
ramp step is one of ±17 µs. -/
def holdoffInv (s : MvsState) : Prop :=
  200 ≤ s.triacTriggerHoldoffMics ∧ s.triacTriggerHoldoffMics ≤ 10000 ∧
  (s.stepMics = -17 ∨ s.stepMics = 17)

instance (s : MvsState) : Decidable (holdoffInv s) := by
  unfold holdoffInv; infer_instance

/-- A state with the ramp in mid-range, used to exercise the operations at a
concrete input. -/
def rampMidState : MvsState := { initialState with triacTriggerHoldoffMics := 5000 }

/-- A timer-register assignment as left behind by an earlier arming call,
used to exercise the skip branch of `scheduleTriacTrigger`. -/
def armedTimer : TimerRegs := ⟨5, 0, 1227, 11⟩

/-! ## Helper lemmas -/

lemma toU16_eq (x : ℤ) (h0 : 0 ≤ x) (h1 : x < 65536) : toU16 x = x.toNat := by
  simp only [toU16]; omega

lemma minDelayMics_eq : minDelayMics = 200 := rfl

lemma maxDelayMics_eq : maxDelayMics = 9000 := rfl

lemma floatToUInt_eq (q : ℚ) : floatToUInt q = (⌊q⌋).toNat := by
  rw [floatToUInt, Rat.floor_def', Rat.floor_def]

/-- Characterization of one `triggerDelay` call from a state whose holdoff and
step satisfy the reachable-state invariant: the holdoff moves by the signed
step, is clamped at 200 and at 9000, and the step sign flips exactly in the
two clamp branches. -/
lemma triggerDelay_spec (s : MvsState)
    (hlo : 200 ≤ s.triacTriggerHoldoffMics)
    (hhi : s.triacTriggerHoldoffMics ≤ 10000)
    (hstep : s.stepMics = -17 ∨ s.stepMics = 17) :
    (if s.triacTriggerHoldoffMics + s.stepMics ≤ 200 then
      triggerDelay s = (200, { s with triacTriggerHoldoffMics := 200, stepMics := -s.stepMics })
    else if 9000 ≤ s.triacTriggerHoldoffMics + s.stepMics then
      triggerDelay s = (9000, { s with triacTriggerHoldoffMics := 9000, stepMics := -s.stepMics })
    else
      triggerDelay s = ((s.triacTriggerHoldoffMics + s.stepMics).toNat,
        { s with triacTriggerHoldoffMics := s.triacTriggerHoldoffMics + s.stepMics })) := by
  have hb0 : 0 ≤ s.triacTriggerHoldoffMics + s.stepMics := by rcases hstep with h | h <;> omega
  have hb1 : s.triacTriggerHoldoffMics + s.stepMics < 65536 := by
    rcases hstep with h | h <;> omega
  have hU : toU16 (s.triacTriggerHoldoffMics + s.stepMics)
      = (s.triacTriggerHoldoffMics + s.stepMics).toNat := toU16_eq _ hb0 hb1
  split
  · next hc =>
    simp only [triggerDelay, minDelayMics_eq, maxDelayMics_eq, hU]
    rw [if_pos (by omega : (s.triacTriggerHoldoffMics + s.stepMics).toNat ≤ 200)]
    simp
  · split
    · next hc1 hc2 =>
      simp only [triggerDelay, minDelayMics_eq, maxDelayMics_eq, hU]
      rw [if_neg (by omega : ¬ (s.triacTriggerHoldoffMics + s.stepMics).toNat ≤ 200),
        if_pos (by omega : 9000 ≤ (s.triacTriggerHoldoffMics + s.stepMics).toNat)]
      simp
    · next hc1 hc2 =>
      simp only [triggerDelay, minDelayMics_eq, maxDelayMics_eq, hU]
      rw [if_neg (by omega : ¬ (s.triacTriggerHoldoffMics + s.stepMics).toNat ≤ 200),
        if_neg (by omega : ¬ 9000 ≤ (s.triacTriggerHoldoffMics + s.stepMics).toNat)]

/-- `triggerDelay` keeps the invariant and returns a value in `[200, 9000]`. -/
lemma triggerDelay_preserves (s : MvsState)
    (hlo : 200 ≤ s.triacTriggerHoldoffMics)
    (hhi : s.triacTriggerHoldoffMics ≤ 10000)
    (hstep : s.stepMics = -17 ∨ s.stepMics = 17) :
    200 ≤ (triggerDelay s).1 ∧ (triggerDelay s).1 ≤ 9000 ∧
    200 ≤ (triggerDelay s).2.triacTriggerHoldoffMics ∧
    (triggerDelay s).2.triacTriggerHoldoffMics ≤ 10000 ∧
    ((triggerDelay s).2.stepMics = -17 ∨ (triggerDelay s).2.stepMics = 17) := by
  have h := triggerDelay_spec s hlo hhi hstep
  by_cases h1 : s.triacTriggerHoldoffMics + s.stepMics ≤ 200
  · rw [if_pos h1] at h
    rw [h]
    refine ⟨by norm_num, by norm_num, by norm_num, by norm_num, ?_⟩
    rcases hstep with h | h <;> simp [h]
  · rw [if_neg h1] at h
    by_cases h2 : 9000 ≤ s.triacTriggerHoldoffMics + s.stepMics
    · rw [if_pos h2] at h
      rw [h]
      refine ⟨by norm_num, by norm_num, by norm_num, by norm_num, ?_⟩
      rcases hstep with h | h <;> simp [h]
    · rw [if_neg h2] at h
      rw [h]
      refine ⟨by omega, by omega,
        by simpa using (by omega : 200 ≤ s.triacTriggerHoldoffMics + s.stepMics),
        by simpa using (by omega : s.triacTriggerHoldoffMics + s.stepMics ≤ 10000), ?_⟩
      simpa using hstep

/-- `triggerDelay` touches only the holdoff and the step: every other field
of the state is returned unchanged, in every branch. -/
lemma triggerDelay_frame (s : MvsState) :
    (triggerDelay s).2.avgAboveThMics = s.avgAboveThMics ∧
    (triggerDelay s).2.avgBelowThMics = s.avgBelowThMics ∧
    (triggerDelay s).2.tsLastAboveThMics = s.tsLastAboveThMics ∧
    (triggerDelay s).2.tsLastBelowThMics = s.tsLastBelowThMics ∧
    (triggerDelay s).2.detectOut = s.detectOut ∧
    (triggerDelay s).2.timer = s.timer ∧
    (triggerDelay s).2.schedHistory = s.schedHistory := by
  simp only [triggerDelay]
  split
  · exact ⟨rfl, rfl, rfl, rfl, rfl, rfl, rfl⟩
  · split
    · exact ⟨rfl, rfl, rfl, rfl, rfl, rfl, rfl⟩
    · exact ⟨rfl, rfl, rfl, rfl, rfl, rfl, rfl⟩

lemma vct_rising_soft (s : MvsState) (now : ℕ)
    (h : halfPeriodMics < edgeDelta now s.tsLastBelowThMics) :
    voltageCrossedThreshold true now s
      = softStart { s with detectOut := true, tsLastAboveThMics := now } := by
  simp only [voltageCrossedThreshold, if_pos h, if_true]

lemma vct_falling_soft (s : MvsState) (now : ℕ)
    (h : halfPeriodMics < edgeDelta now s.tsLastAboveThMics) :
    voltageCrossedThreshold false now s
      = softStart { s with detectOut := false, tsLastBelowThMics := now } := by
  simp only [voltageCrossedThreshold, if_pos h, Bool.false_eq_true, if_false]

lemma vct_rising_normal (s : MvsState) (now : ℕ)
    (h : edgeDelta now s.tsLastBelowThMics ≤ halfPeriodMics) :
    voltageCrossedThreshold true now s =
      { (triggerDelay (risingMid s now)).2 with
          timer := scheduleTriacTrigger
            (floatToUInt (((risingMid s now).avgBelowThMics + 1) / 2))
            (triggerDelay (risingMid s now)).1
            (triggerDelay (risingMid s now)).2.timer
          schedHistory :=
            (floatToUInt (((risingMid s now).avgBelowThMics + 1) / 2),
              (triggerDelay (risingMid s now)).1)
              :: (triggerDelay (risingMid s now)).2.schedHistory } := by
  simp only [voltageCrossedThreshold,
    if_neg (by omega : ¬ halfPeriodMics < edgeDelta now s.tsLastBelowThMics), if_true]
  rfl

lemma vct_falling_normal (s : MvsState) (now : ℕ)
    (h : edgeDelta now s.tsLastAboveThMics ≤ halfPeriodMics) :
    voltageCrossedThreshold false now s =
      { s with detectOut := false, tsLastBelowThMics := now,
               avgAboveThMics := s.avgAboveThMics
                 + ((edgeDelta now s.tsLastAboveThMics : ℚ) - s.avgAboveThMics) / 32 } := by
  simp only [voltageCrossedThreshold,
    if_neg (by omega : ¬ halfPeriodMics < edgeDelta now s.tsLastAboveThMics),
    Bool.false_eq_true, if_false]

/-! ## Claims -/

/-- C1: on any edge (rising or falling) whose interval since the previous
opposite-direction edge exceeds `halfPeriodMics`, `voltageCrossedThreshold`
invokes `softStart`, so afterwards the holdoff equals `halfPeriodMics`
exactly, regardless of the prior ramp position; neither running average is
updated on such an edge and no trigger is scheduled (timer registers and
scheduling history are untouched). -/
theorem C1_softStart_on_long_interval (s : MvsState) (rose : Bool) (now : ℕ)
    (h : halfPeriodMics < edgeDelta now
      (if rose then s.tsLastBelowThMics else s.tsLastAboveThMics)) :
    (voltageCrossedThreshold rose now s).triacTriggerHoldoffMics = (halfPeriodMics : ℤ) ∧
    (voltageCrossedThreshold rose now s).avgAboveThMics = s.avgAboveThMics ∧
    (voltageCrossedThreshold rose now s).avgBelowThMics = s.avgBelowThMics ∧
    (voltageCrossedThreshold rose now s).timer = s.timer ∧
    (voltageCrossedThreshold rose now s).schedHistory = s.schedHistory := by
  cases rose
  · simp only [if_false, Bool.false_eq_true] at h
    rw [vct_falling_soft s now h]
    simp [softStart]
  · simp only [if_true] at h
    rw [vct_rising_soft s now h]
    simp [softStart]

/-- Witness for C1: a rising edge at 20000 µs, 20000 µs after the last
falling edge, from a state with the ramp mid-range. -/
theorem C1_softStart_on_long_interval_witness :
    (halfPeriodMics < edgeDelta 20000
      (if true then rampMidState.tsLastBelowThMics else rampMidState.tsLastAboveThMics)) ∧
    ((voltageCrossedThreshold true 20000 rampMidState).triacTriggerHoldoffMics
        = (halfPeriodMics : ℤ) ∧
     (voltageCrossedThreshold true 20000 rampMidState).avgAboveThMics
        = rampMidState.avgAboveThMics ∧
     (voltageCrossedThreshold true 20000 rampMidState).avgBelowThMics
        = rampMidState.avgBelowThMics ∧
     (voltageCrossedThreshold true 20000 rampMidState).timer = rampMidState.timer ∧
     (voltageCrossedThreshold true 20000 rampMidState).schedHistory
        = rampMidState.schedHistory) :=
  ⟨by decide, C1_softStart_on_long_interval rampMidState true 20000 (by decide)⟩

/-- C2: from any reachable delay-generator state (holdoff in
`[200, 10000]`, step ±17), `triggerDelay` returns a value in
`[minDelayMics, maxDelayMics] = [200, 9000]` that equals the stored
holdoff, and the successive values form the deterministic triangular
sequence: the holdoff moves by the signed step (magnitude 17), is clamped
at 200 and at 9000, and the step sign is reversed exactly in the clamp
branches. -/
theorem C2_triggerDelay_triangular (s : MvsState)
    (hlo : 200 ≤ s.triacTriggerHoldoffMics)
    (hhi : s.triacTriggerHoldoffMics ≤ 10000)
    (hstep : s.stepMics = -17 ∨ s.stepMics = 17) :
    minDelayMics ≤ (triggerDelay s).1 ∧ (triggerDelay s).1 ≤ maxDelayMics ∧
    (triggerDelay s).2.triacTriggerHoldoffMics = ((triggerDelay s).1 : ℤ) ∧
    (if s.triacTriggerHoldoffMics + s.stepMics ≤ 200 then
       (triggerDelay s).1 = minDelayMics ∧ (triggerDelay s).2.stepMics = -s.stepMics
     else if 9000 ≤ s.triacTriggerHoldoffMics + s.stepMics then
       (triggerDelay s).1 = maxDelayMics ∧ (triggerDelay s).2.stepMics = -s.stepMics
     else
       ((triggerDelay s).1 : ℤ) = s.triacTriggerHoldoffMics + s.stepMics ∧
       (triggerDelay s).2.stepMics = s.stepMics) := by
  have h := triggerDelay_spec s hlo hhi hstep
  by_cases h1 : s.triacTriggerHoldoffMics + s.stepMics ≤ 200
  · rw [if_pos h1] at h
    rw [h]
    rw [if_pos h1]
    refine ⟨by norm_num [minDelayMics_eq],
      by norm_num [minDelayMics_eq, maxDelayMics_eq], ?_, rfl, rfl⟩
    simp [minDelayMics_eq]
  · rw [if_neg h1] at h
    rw [if_neg h1]
    by_cases h2 : 9000 ≤ s.triacTriggerHoldoffMics + s.stepMics
    · rw [if_pos h2] at h
      rw [h, if_pos h2]
      refine ⟨by norm_num [minDelayMics_eq, maxDelayMics_eq],
        by norm_num [maxDelayMics_eq], ?_, rfl, rfl⟩
      simp [maxDelayMics_eq]
    · rw [if_neg h2] at h
      rw [h, if_neg h2]
      rcases hstep with hs | hs <;>
        refine ⟨by simp only [minDelayMics_eq]; omega, by simp only [maxDelayMics_eq]; omega,
          by simp; omega, by simp; omega, rfl⟩

/-- Witness for C2: one call from the initial state (holdoff 10000,
step -17) clamps to 9000 and reverses the ramp. -/
theorem C2_triggerDelay_triangular_witness :
    (200 ≤ initialState.triacTriggerHoldoffMics ∧
     initialState.triacTriggerHoldoffMics ≤ 10000 ∧
     (initialState.stepMics = -17 ∨ initialState.stepMics = 17)) ∧
    (minDelayMics ≤ (triggerDelay initialState).1 ∧
     (triggerDelay initialState).1 ≤ maxDelayMics ∧
     (triggerDelay initialState).2.triacTriggerHoldoffMics
        = ((triggerDelay initialState).1 : ℤ) ∧
     (if initialState.triacTriggerHoldoffMics + initialState.stepMics ≤ 200 then
        (triggerDelay initialState).1 = minDelayMics ∧
        (triggerDelay initialState).2.stepMics = -initialState.stepMics
      else if 9000 ≤ initialState.triacTriggerHoldoffMics + initialState.stepMics then
        (triggerDelay initialState).1 = maxDelayMics ∧
        (triggerDelay initialState).2.stepMics = -initialState.stepMics
      else
        ((triggerDelay initialState).1 : ℤ)
          = initialState.triacTriggerHoldoffMics + initialState.stepMics ∧
        (triggerDelay initialState).2.stepMics = initialState.stepMics)) :=
  ⟨⟨by decide, by decide, by decide⟩,
    C2_triggerDelay_triangular initialState (by decide) (by decide) (Or.inl (by decide))⟩

/-- C6 counterexample: the claim says the holdoff always lies in
`[200, 9000]`, but at initialization — and again right after any
`softStart` — `triacTriggerHoldoffMics` is `halfPeriodMics = 10000`,
outside that interval. -/
theorem C6_counterexample :
    initialState.triacTriggerHoldoffMics = 10000 ∧
    (softStart rampMidState).triacTriggerHoldoffMics = 10000 ∧
    ¬ initialState.triacTriggerHoldoffMics ≤ 9000 ∧
    ¬ (softStart rampMidState).triacTriggerHoldoffMics ≤ 9000 := by
  decide

/-- C6 amended: after initialization and after every operation the holdoff
lies in `[200, 10000]` (`holdoffInv`, which also records the ±17 step); it
equals 10000 only at start-up and right after `softStart`, and every
`triggerDelay` call returns it into `[200, 9000]`. -/
theorem C6_holdoff_invariant (s : MvsState) (h : holdoffInv s) :
    holdoffInv initialState ∧
    holdoffInv (softStart s) ∧
    holdoffInv (triggerDelay s).2 ∧
    (∀ rose now, holdoffInv (voltageCrossedThreshold rose now s)) ∧
    200 ≤ (triggerDelay s).1 ∧ (triggerDelay s).1 ≤ 9000 := by
  obtain ⟨h1, h2, h3⟩ := h
  have hp := triggerDelay_preserves s h1 h2 h3
  refine ⟨by decide,
    ⟨by simp [softStart, halfPeriodMics], by simp [softStart, halfPeriodMics],
      by simpa [softStart] using h3⟩,
    ⟨hp.2.2.1, hp.2.2.2.1, hp.2.2.2.2⟩, ?_, hp.1, hp.2.1⟩
  intro rose now
  cases rose
  · by_cases hd : halfPeriodMics < edgeDelta now s.tsLastAboveThMics
    · rw [vct_falling_soft s now hd]
      exact ⟨by simp [softStart, halfPeriodMics], by simp [softStart, halfPeriodMics],
        by simpa [softStart] using h3⟩
    · rw [vct_falling_normal s now (by omega)]
      exact ⟨by simpa using h1, by simpa using h2, by simpa using h3⟩
  · by_cases hd : halfPeriodMics < edgeDelta now s.tsLastBelowThMics
    · rw [vct_rising_soft s now hd]
      exact ⟨by simp [softStart, halfPeriodMics], by simp [softStart, halfPeriodMics],
        by simpa [softStart] using h3⟩
    · rw [vct_rising_normal s now (by omega)]
      have hq := triggerDelay_preserves (risingMid s now)
        (by simpa [risingMid] using h1) (by simpa [risingMid] using h2)
        (by simpa [risingMid] using h3)
      exact ⟨by simpa using hq.2.2.1, by simpa using hq.2.2.2.1, by simpa using hq.2.2.2.2⟩

/-- Witness for C6: the invariant holds at a mid-ramp state and is
preserved by each operation from there. -/
theorem C6_holdoff_invariant_witness :
    holdoffInv rampMidState ∧
    (holdoffInv initialState ∧
     holdoffInv (softStart rampMidState) ∧
     holdoffInv (triggerDelay rampMidState).2 ∧
     (∀ rose now, holdoffInv (voltageCrossedThreshold rose now rampMidState)) ∧
     200 ≤ (triggerDelay rampMidState).1 ∧ (triggerDelay rampMidState).1 ≤ 9000) :=
  ⟨by decide, C6_holdoff_invariant rampMidState (by decide)⟩

/-- C3 counterexample: the claim's cutoff is `halfPeriodMics × 31/32 =
9687.5`, so a requested delay of 9688 µs exceeds it; yet the code's
condition is `delayMics > halfPeriodMics - halfPeriodMics/32 = 9688`,
which is false at 9688, so the call does write the timer registers
(TCCR1B becomes 11, starting the timer). -/
theorem C3_counterexample :
    (halfPeriodMics : ℚ) * 31 / 32 < 9688 ∧
    scheduleTriacTrigger 0 9688 initialTimer ≠ initialTimer ∧
    (scheduleTriacTrigger 0 9688 initialTimer).TCCR1B = 11 := by
  refine ⟨by norm_num [halfPeriodMics], by decide, by decide⟩

/-- C3 amended: no trigger is scheduled — the function returns with the
timer registers untouched — exactly when the requested delay exceeds
`halfPeriodMics - halfPeriodMics / 32 = 9688` µs (the integer form of the
97 % cutoff computed by the code). -/
theorem C3_skip_above_cutoff (micsSinceZeroCross delayMics : ℕ) (t : TimerRegs)
    (h : halfPeriodMics - halfPeriodMics / 32 < delayMics) :
    scheduleTriacTrigger micsSinceZeroCross delayMics t = t := by
  simp only [scheduleTriacTrigger, if_pos h]

/-- Witness for C3: a 9689 µs request is dropped. -/
theorem C3_skip_above_cutoff_witness :
    (halfPeriodMics - halfPeriodMics / 32 < 9689) ∧
    scheduleTriacTrigger 100 9689 armedTimer = armedTimer :=
  ⟨by decide, C3_skip_above_cutoff 100 9689 armedTimer (by decide)⟩

/-- C4 counterexample: for `scheduleTriacTrigger 0 21` the code programs
`OCR1A = 5` (truncating division `21 / 4`), while the claim's formula
`max 4 ⌈21/4⌉` gives 6. -/
theorem C4_counterexample :
    (21 : ℕ) ≤ halfPeriodMics - halfPeriodMics / 32 ∧
    (scheduleTriacTrigger 0 21 initialTimer).OCR1A = 5 ∧
    max 4 ⌈((21 : ℚ) - 0) / 4⌉ = 6 := by
  have h6 : ⌈((21 : ℚ) - 0) / 4⌉ = 6 := by
    rw [Int.ceil_eq_iff]; norm_num
  refine ⟨by decide, by decide, by rw [h6]; norm_num⟩

/-- C4 amended: whenever `scheduleTriacTrigger` arms the timer (delay not
above the cutoff) with `micsSinceZeroCross ≤ delayMics`, the programmed
compare value is `max 4 ((delayMics - micsSinceZeroCross) / 4)` — the
*floor* of the difference over the 4 µs tick, clamped below at 4 — and in
particular is at least 4. -/
theorem C4_ticks_floor_clamped (micsSinceZeroCross delayMics : ℕ) (t : TimerRegs)
    (h1 : delayMics ≤ halfPeriodMics - halfPeriodMics / 32)
    (h2 : micsSinceZeroCross ≤ delayMics) :
    (scheduleTriacTrigger micsSinceZeroCross delayMics t).OCR1A
      = max 4 ((delayMics - micsSinceZeroCross) / 4) ∧
    4 ≤ (scheduleTriacTrigger micsSinceZeroCross delayMics t).OCR1A := by
  rw [scheduleTriacTrigger, if_neg (by omega)]
  by_cases hc : micsSinceZeroCross < delayMics
  · rw [if_pos hc]
    constructor
    · by_cases h4 : (delayMics - micsSinceZeroCross) / 4 < 4
      · simp only [if_pos h4]; omega
      · simp only [if_neg h4]; omega
    · by_cases h4 : (delayMics - micsSinceZeroCross) / 4 < 4
      · simp only [if_pos h4]; omega
      · simp only [if_neg h4]; omega
  · rw [if_neg hc]
    have he : delayMics - micsSinceZeroCross = 0 := by omega
    simp [he]

/-- Witness for C4: a 21 µs request 0 µs after the zero cross programs
`OCR1A = max 4 (21 / 4) = 5`. -/
theorem C4_ticks_floor_clamped_witness :
    ((21 : ℕ) ≤ halfPeriodMics - halfPeriodMics / 32 ∧ (0 : ℕ) ≤ 21) ∧
    ((scheduleTriacTrigger 0 21 armedTimer).OCR1A = max 4 ((21 - 0) / 4) ∧
     4 ≤ (scheduleTriacTrigger 0 21 armedTimer).OCR1A) :=
  ⟨⟨by decide, by decide⟩, C4_ticks_floor_clamped 0 21 armedTimer (by decide) (by decide)⟩

/-- C10: when `scheduleTriacTrigger` takes the skip branch (delay above the
cutoff), it mutates nothing: TCNT1, TCCR1A, OCR1A and TCCR1B all keep
their previous values, so an earlier timer program is not disturbed. -/
theorem C10_skip_branch_frame (micsSinceZeroCross delayMics : ℕ) (t : TimerRegs)
    (h : halfPeriodMics - halfPeriodMics / 32 < delayMics) :
    (scheduleTriacTrigger micsSinceZeroCross delayMics t).TCNT1 = t.TCNT1 ∧
    (scheduleTriacTrigger micsSinceZeroCross delayMics t).TCCR1A = t.TCCR1A ∧
    (scheduleTriacTrigger micsSinceZeroCross delayMics t).OCR1A = t.OCR1A ∧
    (scheduleTriacTrigger micsSinceZeroCross delayMics t).TCCR1B = t.TCCR1B := by
  rw [scheduleTriacTrigger, if_pos h]
  exact ⟨rfl, rfl, rfl, rfl⟩

/-- Witness for C10: an over-budget 9700 µs request leaves a previously
armed timer program (compare value 1227, running) fully intact. -/
theorem C10_skip_branch_frame_witness :
    (halfPeriodMics - halfPeriodMics / 32 < 9700) ∧
    ((scheduleTriacTrigger 3 9700 armedTimer).TCNT1 = armedTimer.TCNT1 ∧
     (scheduleTriacTrigger 3 9700 armedTimer).TCCR1A = armedTimer.TCCR1A ∧
     (scheduleTriacTrigger 3 9700 armedTimer).OCR1A = armedTimer.OCR1A ∧
     (scheduleTriacTrigger 3 9700 armedTimer).TCCR1B = armedTimer.TCCR1B) :=
  ⟨by decide, C10_skip_branch_frame 3 9700 armedTimer (by decide)⟩

/-- C5 counterexample: from a state with `avgBelowThMics = 150` a rising
edge with interval 150 µs leaves the average at 150 and schedules with
zero-cross reference 75 — the C truncation of `(150 + 1) / 2` — whereas
`round ((150 + 1) / 2) = 76`; the two references program different compare
values (1227 vs 1226), so the claim's `round` formula contradicts the
code. -/
theorem C5_counterexample :
    edgeDelta 150 rampMidState.tsLastBelowThMics ≤ halfPeriodMics ∧
    (voltageCrossedThreshold true 150 rampMidState).avgBelowThMics = 150 ∧
    (voltageCrossedThreshold true 150 rampMidState).schedHistory = [(75, 4983)] ∧
    round ((150 + 1 : ℚ) / 2) = 76 ∧
    (voltageCrossedThreshold true 150 rampMidState).timer.OCR1A = 1227 ∧
    (scheduleTriacTrigger 76 4983 rampMidState.timer).OCR1A = 1226 := by
  refine ⟨by decide, ?_, ?_, ?_, ?_, by decide⟩
  · norm_num [voltageCrossedThreshold, triggerDelay, scheduleTriacTrigger, edgeDelta,
      floatToUInt_eq, toU16, halfPeriodMics, minDelayMics, maxDelayMics, rampMidState,
      initialState, initialTimer, softStart]
  · norm_num [voltageCrossedThreshold, triggerDelay, scheduleTriacTrigger, edgeDelta,
      floatToUInt_eq, toU16, halfPeriodMics, minDelayMics, maxDelayMics, rampMidState,
      initialState, initialTimer, softStart]
    decide
  · rw [round_eq]; norm_num
  · norm_num [voltageCrossedThreshold, triggerDelay, scheduleTriacTrigger, edgeDelta,
      floatToUInt_eq, toU16, halfPeriodMics, minDelayMics, maxDelayMics, rampMidState,
      initialState, initialTimer, softStart]
    decide

/-- C5 amended: on a rising edge with interval ≤ `halfPeriodMics` the
below-threshold average is smoothed by `(delta - avg) / 32`, and a trigger
is scheduled whose zero-cross reference is the *truncation*
`floatToUInt ((avg + 1) / 2)` of the updated average, with the delay
freshly obtained from `triggerDelay` (whose updated ramp state is kept);
on a falling edge with interval ≤ `halfPeriodMics` only the
above-threshold average is smoothed and nothing is scheduled. -/
theorem C5_update_and_schedule (s : MvsState) (nowR nowF : ℕ)
    (hR : edgeDelta nowR s.tsLastBelowThMics ≤ halfPeriodMics)
    (hF : edgeDelta nowF s.tsLastAboveThMics ≤ halfPeriodMics) :
    ((voltageCrossedThreshold true nowR s).avgBelowThMics
        = s.avgBelowThMics
          + ((edgeDelta nowR s.tsLastBelowThMics : ℚ) - s.avgBelowThMics) / 32 ∧
     (voltageCrossedThreshold true nowR s).avgAboveThMics = s.avgAboveThMics ∧
     (voltageCrossedThreshold true nowR s).schedHistory
        = (floatToUInt (((risingMid s nowR).avgBelowThMics + 1) / 2),
           (triggerDelay (risingMid s nowR)).1) :: s.schedHistory ∧
     (voltageCrossedThreshold true nowR s).timer
        = scheduleTriacTrigger
            (floatToUInt (((risingMid s nowR).avgBelowThMics + 1) / 2))
            (triggerDelay (risingMid s nowR)).1 s.timer ∧
     (voltageCrossedThreshold true nowR s).triacTriggerHoldoffMics
        = (triggerDelay (risingMid s nowR)).2.triacTriggerHoldoffMics ∧
     (voltageCrossedThreshold true nowR s).stepMics
        = (triggerDelay (risingMid s nowR)).2.stepMics) ∧
    ((voltageCrossedThreshold false nowF s).avgAboveThMics
        = s.avgAboveThMics
          + ((edgeDelta nowF s.tsLastAboveThMics : ℚ) - s.avgAboveThMics) / 32 ∧
     (voltageCrossedThreshold false nowF s).avgBelowThMics = s.avgBelowThMics ∧
     (voltageCrossedThreshold false nowF s).timer = s.timer ∧
     (voltageCrossedThreshold false nowF s).schedHistory = s.schedHistory) := by
  have hf := triggerDelay_frame (risingMid s nowR)
  rw [vct_rising_normal s nowR hR, vct_falling_normal s nowF hF]
  exact ⟨⟨hf.2.1, hf.1, by rw [hf.2.2.2.2.2.2]; rfl, by rw [hf.2.2.2.2.2.1]; rfl, rfl, rfl⟩,
    rfl, rfl, rfl, rfl⟩

/-- Witness for C5: a rising edge at 150 µs and a falling edge at 9600 µs
from the mid-ramp state. -/
theorem C5_update_and_schedule_witness :
    (edgeDelta 150 rampMidState.tsLastBelowThMics ≤ halfPeriodMics ∧
     edgeDelta 9600 rampMidState.tsLastAboveThMics ≤ halfPeriodMics) ∧
    (((voltageCrossedThreshold true 150 rampMidState).avgBelowThMics
        = rampMidState.avgBelowThMics
          + ((edgeDelta 150 rampMidState.tsLastBelowThMics : ℚ)
              - rampMidState.avgBelowThMics) / 32 ∧
     (voltageCrossedThreshold true 150 rampMidState).avgAboveThMics
        = rampMidState.avgAboveThMics ∧
     (voltageCrossedThreshold true 150 rampMidState).schedHistory
        = (floatToUInt (((risingMid rampMidState 150).avgBelowThMics + 1) / 2),
           (triggerDelay (risingMid rampMidState 150)).1) :: rampMidState.schedHistory ∧
     (voltageCrossedThreshold true 150 rampMidState).timer
        = scheduleTriacTrigger
            (floatToUInt (((risingMid rampMidState 150).avgBelowThMics + 1) / 2))
            (triggerDelay (risingMid rampMidState 150)).1 rampMidState.timer ∧
     (voltageCrossedThreshold true 150 rampMidState).triacTriggerHoldoffMics
        = (triggerDelay (risingMid rampMidState 150)).2.triacTriggerHoldoffMics ∧
     (voltageCrossedThreshold true 150 rampMidState).stepMics
        = (triggerDelay (risingMid rampMidState 150)).2.stepMics) ∧
    ((voltageCrossedThreshold false 9600 rampMidState).avgAboveThMics
        = rampMidState.avgAboveThMics
          + ((edgeDelta 9600 rampMidState.tsLastAboveThMics : ℚ)
              - rampMidState.avgAboveThMics) / 32 ∧
     (voltageCrossedThreshold false 9600 rampMidState).avgBelowThMics
        = rampMidState.avgBelowThMics ∧
     (voltageCrossedThreshold false 9600 rampMidState).timer = rampMidState.timer ∧
     (voltageCrossedThreshold false 9600 rampMidState).schedHistory
        = rampMidState.schedHistory)) :=
  ⟨⟨by decide, by decide⟩,
    C5_update_and_schedule rampMidState 150 9600 (by decide) (by decide)⟩

/-- C7 counterexample: a rising edge whose interval exceeds
`halfPeriodMics` (soft-start path) updates *neither* running average —
both keep their values, and the smoothing rule would have changed either
one — refuting "exactly one average is updated on every edge". -/
theorem C7_counterexample :
    halfPeriodMics < edgeDelta 20000 initialState.tsLastBelowThMics ∧
    (voltageCrossedThreshold true 20000 initialState).avgAboveThMics
      = initialState.avgAboveThMics ∧
    (voltageCrossedThreshold true 20000 initialState).avgBelowThMics
      = initialState.avgBelowThMics ∧
    initialState.avgBelowThMics
        + ((edgeDelta 20000 initialState.tsLastBelowThMics : ℚ)
            - initialState.avgBelowThMics) / 32
      ≠ initialState.avgBelowThMics ∧
    initialState.avgAboveThMics
        + ((edgeDelta 20000 initialState.tsLastAboveThMics : ℚ)
            - initialState.avgAboveThMics) / 32
      ≠ initialState.avgAboveThMics := by
  refine ⟨by decide, by decide, by decide, ?_, ?_⟩
  · norm_num [edgeDelta, initialState]
  · norm_num [edgeDelta, initialState]

/-- C7 amended: at most one running average is updated per edge — exactly
one (the one matching the edge direction, by the smoothing rule) when the
interval is ≤ `halfPeriodMics`, and neither on a soft-start edge. -/
theorem C7_at_most_one_average (s : MvsState) (rose : Bool) (now : ℕ) :
    if halfPeriodMics
        < edgeDelta now (if rose then s.tsLastBelowThMics else s.tsLastAboveThMics) then
      (voltageCrossedThreshold rose now s).avgAboveThMics = s.avgAboveThMics ∧
      (voltageCrossedThreshold rose now s).avgBelowThMics = s.avgBelowThMics
    else if rose then
      (voltageCrossedThreshold rose now s).avgBelowThMics
        = s.avgBelowThMics
          + ((edgeDelta now s.tsLastBelowThMics : ℚ) - s.avgBelowThMics) / 32 ∧
      (voltageCrossedThreshold rose now s).avgAboveThMics = s.avgAboveThMics
    else
      (voltageCrossedThreshold rose now s).avgAboveThMics
        = s.avgAboveThMics
          + ((edgeDelta now s.tsLastAboveThMics : ℚ) - s.avgAboveThMics) / 32 ∧
      (voltageCrossedThreshold rose now s).avgBelowThMics = s.avgBelowThMics := by
  cases rose
  · simp only [if_false, Bool.false_eq_true]
    by_cases hd : halfPeriodMics < edgeDelta now s.tsLastAboveThMics
    · rw [if_pos hd, vct_falling_soft s now hd]
      exact ⟨rfl, rfl⟩
    · rw [if_neg hd, vct_falling_normal s now (by omega)]
      exact ⟨rfl, rfl⟩
  · simp only [if_true]
    by_cases hd : halfPeriodMics < edgeDelta now s.tsLastBelowThMics
    · rw [if_pos hd, vct_rising_soft s now hd]
      exact ⟨rfl, rfl⟩
    · have hf := triggerDelay_frame (risingMid s now)
      rw [if_neg hd, vct_rising_normal s now (by omega)]
      exact ⟨hf.2.1, hf.1⟩

/-- C8 counterexample: feeding the ideal 50 Hz edges (rising at multiples
of 10000 µs, falling 9600 µs later) for 32 cycles leaves
`avgAboveThMics = 9600` (not ≈ 150) and `avgBelowThMics < 400` (not
≈ 9600): the claim swaps the two averages. -/
theorem C8_counterexample :
    (runEdges (idealEdges 32) initialState).avgAboveThMics = 9600 ∧
    (runEdges (idealEdges 32) initialState).avgBelowThMics < 400 := by
  norm_num [runEdges, idealEdges, voltageCrossedThreshold, triggerDelay,
    scheduleTriacTrigger, edgeDelta, floatToUInt_eq, toU16, halfPeriodMics,
    minDelayMics, maxDelayMics, initialState, initialTimer, softStart]

/-- C8 amended: after 32 ideal 50 Hz cycles `avgAboveThMics` is exactly
9600 (its fixed point under the feed) and `avgBelowThMics` lies in
`(300, 400)`, converging towards the 400 µs below-threshold interval; the
32 scheduled delays are 9000, 9000 and then decrease by 17 µs per cycle —
the descending leg of the triangular ramp inside `[200, 9000]`. -/
theorem C8_ideal_feed :
    (runEdges (idealEdges 32) initialState).avgAboveThMics = 9600 ∧
    300 < (runEdges (idealEdges 32) initialState).avgBelowThMics ∧
    (runEdges (idealEdges 32) initialState).avgBelowThMics < 400 ∧
    (runEdges (idealEdges 32) initialState).schedHistory.reverse.map Prod.snd
      = 9000 :: 9000 :: (List.range 30).map (fun k => 8983 - 17 * k) := by
  norm_num [runEdges, idealEdges, voltageCrossedThreshold, triggerDelay,
    scheduleTriacTrigger, edgeDelta, floatToUInt_eq, toU16, halfPeriodMics,
    minDelayMics, maxDelayMics, initialState, initialTimer, softStart, List.range_succ]
  decide

/-- C9: the inter-edge delta is the unsigned 32-bit difference of the two
timestamps, so whenever the true elapsed time is below `2^32` µs it is
recovered exactly even across a counter wraparound, and the
`delta > halfPeriodMics` mains-loss test gives the same answer as on the
true elapsed time. -/
theorem C9_wraparound_delta (tLast tNow : ℕ) (h1 : tLast ≤ tNow)
    (h2 : tNow - tLast < 4294967296) :
    edgeDelta (tNow % 4294967296) (tLast % 4294967296) = tNow - tLast ∧
    edgeDelta tNow tLast = tNow - tLast ∧
    (halfPeriodMics < edgeDelta (tNow % 4294967296) (tLast % 4294967296)
      ↔ halfPeriodMics < tNow - tLast) := by
  have he : edgeDelta (tNow % 4294967296) (tLast % 4294967296) = tNow - tLast := by
    unfold edgeDelta; omega
  have he2 : edgeDelta tNow tLast = tNow - tLast := by
    unfold edgeDelta; omega
  exact ⟨he, he2, by rw [he]⟩

/-- Witness for C9: a 396 µs interval straddling the 32-bit wraparound of
the microsecond counter. -/
theorem C9_wraparound_delta_witness :
    ((4294967000 : ℕ) ≤ 4294967396 ∧ (4294967396 - 4294967000 : ℕ) < 4294967296) ∧
    (edgeDelta (4294967396 % 4294967296) (4294967000 % 4294967296)
       = 4294967396 - 4294967000 ∧
     edgeDelta 4294967396 4294967000 = 4294967396 - 4294967000 ∧
     (halfPeriodMics < edgeDelta (4294967396 % 4294967296) (4294967000 % 4294967296)
       ↔ halfPeriodMics < 4294967396 - 4294967000)) :=
  ⟨⟨by decide, by decide⟩, C9_wraparound_delta 4294967000 4294967396 (by decide) (by decide)⟩

end Mvs
